import Mathlib

/-!
Verification of the HoudiniGeoIOSchema exporter (`geoschema.py`).

The Python module is shallowly embedded below.  Conventions:

* numpy arrays are modelled by `NpArray`: a dtype tag, a shape, and the
  row-major flat data.  Numeric payloads (int32 / float32 cells) are
  abstracted to `Int`; no claim inspects floating-point arithmetic, only
  shapes, dtypes and serialization structure.
* Python strings are modelled by `String`; the handful of `str` methods the
  source uses (`lower`, `rstrip`, `lstrip`, `endswith`, slicing,
  `splitlines`, `join`) are reimplemented over `List Char` so that they
  evaluate inside the kernel.  They model the ASCII behaviour of CPython,
  which is all the exporter exercises (format names, JSON text).
* file-system effects are modelled by a trace of `FsEvent`s; an export call
  returns the trace together with either the resulting path or the error it
  raised (`RuntimeError`s of the source become `GeoError`).
* `pathlib.Path.with_suffix(ext)` on the archive path is modelled
  faithfully by `pyWithSuffix` (it replaces an existing dot-suffix of the
  final component rather than appending, which matters because the export
  name is caller-supplied); on per-attribute file paths it is modelled as
  string append of `ext`, since Houdini attribute names and the fixed
  topology/metadata file names contain no dot.
-/

/-! ### Python string primitives (ASCII model) -/

/-- ASCII case folding of one character, as `str.lower` does on ASCII text. -/
def lowerChar (c : Char) : Char :=
  if 'A' ≤ c ∧ c ≤ 'Z' then Char.ofNat (c.toNat + 32) else c

/-- `s.lower()` (ASCII model). -/
def pyLower (s : String) : String := String.mk (s.data.map lowerChar)

/-- `s.rstrip()`: drop trailing whitespace. -/
def pyRstrip (s : String) : String :=
  String.mk ((s.data.reverse.dropWhile Char.isWhitespace).reverse)

/-- `line[:len(line) - len(line.lstrip())]`: the leading-whitespace run. -/
def leadingWhitespace (s : String) : String :=
  String.mk (s.data.takeWhile Char.isWhitespace)

/-- `s.endswith(suf)`. -/
def pyEndsWith (s suf : String) : Bool := suf.data.isSuffixOf s.data

/-- `s[:-n]` for `n ≤ len(s)`: drop the last `n` characters. -/
def pyDropRight (s : String) (n : Nat) : String :=
  String.mk (s.data.take (s.data.length - n))

/-- Split a character list at every occurrence of `sep` (Python
`str.split(sep)` semantics: `n` separators yield `n+1` pieces). -/
def splitChar (sep : Char) : List Char → List (List Char)
  | [] => [[]]
  | c :: cs =>
    let r := splitChar sep cs
    if c = sep then [] :: r
    else
      match r with
      | [] => [[c]]
      | h :: t => (c :: h) :: t

/-- `s.splitlines()` for `\n`-terminated text (the only terminator the
exporter's JSON text contains): like splitting on `\n` but a trailing
newline does not produce a final empty line, and `""` has no lines. -/
def pySplitlines (s : String) : List String :=
  if s.data = [] then []
  else
    let parts := splitChar '\n' s.data
    let parts := if s.data.getLast? = some '\n' then parts.dropLast else parts
    parts.map String.mk

/-- `pathlib.Path.name`: the last `/`-separated component. -/
def lastComponent (p : String) : String :=
  String.mk ((splitChar '/' p.data).getLastD p.data)

/-- The length of `pathlib.PurePath.suffix` of one path component: the
part of the name from its last `'.'`, provided that dot is neither the
first nor the last character of the name; 0 otherwise. -/
def pySuffixLen (name : List Char) : Nat :=
  match name.reverse.findIdx? (· = '.') with
  | none => 0
  | some j =>
    if 0 < name.length - 1 - j ∧ name.length - 1 - j < name.length - 1 then j + 1
    else 0

/-- `pathlib.Path.with_suffix(suffix)`: replace the dot-suffix of the
final `/`-component with `suffix`, or append `suffix` when the component
has no dot-suffix. -/
def pyWithSuffix (p : String) (suffix : String) : String :=
  let parts := splitChar '/' p.data
  let name := parts.getLastD p.data
  let newName := name.take (name.length - pySuffixLen name) ++ suffix.data
  String.mk (List.intercalate ['/'] (parts.dropLast ++ [newName]))

/-- Python `int()` on a rational number: truncation toward zero. -/
def pyInt (q : Rat) : Int := q.num.tdiv q.den

/-! ### Data model: Houdini geometry snapshot and numpy arrays -/

/-- `hou.attribData`: the declared type of an attribute.  `dict` stands for
any declared type outside {Int, Float, String} (Houdini's
`attribData.Dict`), the case `_attrib_dtype` rejects. -/
inductive AttribData where
  | int
  | float
  | string
  | dict
deriving DecidableEq, Repr

/-- numpy dtype tags used by the exporter (`np.int32` / `np.float32`). -/
inductive DType where
  | int32
  | float32
deriving DecidableEq, Repr

/-- A numpy array: dtype, shape, row-major flat data (cells abstracted to
`Int`). -/
structure NpArray where
  dtype : DType
  shape : List Nat
  data : List Int
deriving DecidableEq, Repr

/-- `arr.ndim`. -/
def NpArray.ndim (a : NpArray) : Nat := a.shape.length

/-- A raw attribute value as returned by `hou` `attribValue`: a numeric
scalar (width-1 attributes), a numeric tuple (width > 1), or a string. -/
inductive HValue where
  | scalar (x : Int)
  | tuple (xs : List Int)
  | str (s : String)
deriving DecidableEq, Repr

/-- Python `str(v)` of an attribute value (only the string case is ever
reached by the exporter's text path). -/
def pyStr : HValue → String
  | .str s => s
  | .scalar x => toString x
  | .tuple xs => toString xs

/-- `hou.Attrib`: name, declared type, declared tuple width. -/
structure Attrib where
  name : String
  dataType : AttribData
  size : Nat
deriving DecidableEq

/-- An element of some domain (point, vertex, primitive, or the geometry
itself for Detail): exposes `attribValue(name)`. -/
structure Element where
  attribValue : String → HValue

/-- `hou.Vertex`: an element that also references one point
(`v.point().number()` is modelled by `pointNumber`). -/
structure Vertex where
  toElement : Element
  pointNumber : Int

/-- `hou.Prim`: an element exposing its ordered vertex list. -/
structure Prim where
  toElement : Element
  vertices : List Vertex

/-- A snapshot of `hou.Geometry`: the four attribute tables, the element
sequences, and the intrinsic counters (`intrinsicValue`), which are
authoritative and independent of the element lists. -/
structure Geometry where
  points : List Element
  prims : List Prim
  pointAttribs : List Attrib
  vertexAttribs : List Attrib
  primAttribs : List Attrib
  globalAttribs : List Attrib
  detail : Element
  pointcount : Int
  primitivecount : Int

/-- `hou.SopNode`: geometry plus `node.path()`. -/
structure SopNode where
  geometry : Geometry
  path : String

/-- Ambient `hou` session state read by the exporter: `hou.frame()`,
`hou.hipFile.path()`, `hou.applicationVersionString()`. -/
structure HouCtx where
  frame : Rat
  hipFilePath : String
  applicationVersionString : String

/-- `hou.attribType`: the four element domains iterated by the exporter. -/
inductive Domain where
  | point
  | vertex
  | prim
  | global
deriving DecidableEq, Repr

/-- The `RuntimeError`s the exporter can raise, split along the spec's
error taxonomy. -/
inductive GeoError where
  | unsupportedFormat (fmt : String)
  | unsupportedAttribType (t : AttribData)
  | unsupportedRank (ndim : Nat)
  | valueError (msg : String)
deriving DecidableEq, Repr

/-! ### Topology: run-length encoding (`_rle_encode_int`) -/

/-- The body of `_rle_encode_int`'s loop: `current` and `run` hold the
pending run; each completed run is flushed as the pair `current, run`. -/
def rleLoop (current : Int) (run : Nat) : List Int → List Int
  | [] => [current, (run : Int)]
  | v :: vs =>
    if v = current then rleLoop current (run + 1) vs
    else current :: (run : Int) :: rleLoop v 1 vs

/-- `_rle_encode_int(values)`: merge consecutive equal values into
interleaved `value, runLength` pairs; the empty sequence encodes to `[]`. -/
def _rle_encode_int (values : List Int) : List Int :=
  match values with
  | [] => []
  | v :: rest => rleLoop v 1 rest

/-- Decoding of the RLE stream as the claim reads it: consume consecutive
`(value, runLength)` pairs, expanding each value `runLength` times. -/
def rle_decode : List Int → List Int
  | v :: n :: rest => List.replicate n.toNat v ++ rle_decode rest
  | _ => []

/-! ### Metadata text normalization (`_format_json_braces`) -/

/-- `_format_json_braces(text)`: reflow every line whose right-stripped form
ends in `": {"` so that the opening brace sits on its own line at the same
indentation; all other lines pass through; the lines are rejoined with
`"\n"` and a final newline is appended.  The accumulator `out` mirrors the
Python loop. -/
def _format_json_braces (text : String) : String :=
  let lines := pySplitlines text
  let out := lines.foldl
    (fun acc line =>
      let stripped := pyRstrip line
      if pyEndsWith stripped ": \x7b" then
        let indent := leadingWhitespace line
        acc ++ [pyDropRight stripped 2, indent ++ "\x7b"]
      else acc ++ [line])
    []
  String.intercalate "\n" out ++ "\n"

/-! ### Attribute typing helpers -/

/-- `_attrib_dtype(attrib)`: numpy dtype for the declared attribute type;
`none` for String; raises `Unsupported attrib type` otherwise. -/
def _attrib_dtype (attrib : Attrib) : Except GeoError (Option DType) :=
  match attrib.dataType with
  | .int => .ok (some .int32)
  | .float => .ok (some .float32)
  | .string => .ok none
  | .dict => .error (.unsupportedAttribType .dict)

/-- `_attrib_type_str(attrib)`: the manifest's type tag; the fallthrough
`str(t)` renders the raw enum. -/
def _attrib_type_str (attrib : Attrib) : String :=
  match attrib.dataType with
  | .int => "int"
  | .float => "float"
  | .string => "string"
  | .dict => "attribData.Dict"

/-- `_get_attribs(geo, atype)`. -/
def _get_attribs (geo : Geometry) (atype : Domain) : List Attrib :=
  match atype with
  | .point => geo.pointAttribs
  | .vertex => geo.vertexAttribs
  | .prim => geo.primAttribs
  | .global => geo.globalAttribs

/-! ### numpy coercion (`np.asarray` + `reshape`) -/

/-- Is the value a numeric scalar? -/
def HValue.isScalar : HValue → Bool
  | .scalar _ => true
  | _ => false

/-- Payload of a scalar value (guarded by `isScalar` at every use). -/
def HValue.scalarVal : HValue → Int
  | .scalar x => x
  | _ => 0

/-- Payload of a tuple value (guarded by tuple-shape checks at every use). -/
def HValue.tupleVals : HValue → List Int
  | .tuple xs => xs
  | _ => []

/-- The common width of a uniform tuple sequence, if any. -/
def tupleWidth? (values : List HValue) : Option Nat :=
  match values with
  | [] => none
  | .tuple xs :: _ =>
    if values.all (fun u =>
        match u with
        | .tuple ys => ys.length == xs.length
        | _ => false)
    then some xs.length
    else none
  | _ => none

/-- `np.asarray(values, dtype)` on a per-element value sequence: a sequence
of scalars yields a rank-1 array of its length, a uniform sequence of
width-`w` tuples yields a rank-2 `(n, w)` array in row-major order, and
anything ragged or mixed raises. -/
def npAsarray (dtype : DType) (values : List HValue) : Except GeoError NpArray :=
  if values.all HValue.isScalar then
    .ok ⟨dtype, [values.length], values.map HValue.scalarVal⟩
  else
    match tupleWidth? values with
    | some w => .ok ⟨dtype, [values.length, w], values.flatMap HValue.tupleVals⟩
    | none => .error (.valueError "np.asarray: ragged or mixed value sequence")

/-- `arr.reshape(shape)`: allowed exactly when the cell count is preserved;
the row-major data is unchanged. -/
def NpArray.reshape (a : NpArray) (shape : List Nat) : Except GeoError NpArray :=
  if shape.prod = a.data.length then .ok ⟨a.dtype, shape, a.data⟩
  else .error (.valueError "cannot reshape")

/-! ### Attribute export (`_export_attrib_array`) -/

/-- The `(data, kind)` pair returned by `_export_attrib_array`: `strs`
carries the `kind == "txt"` string-list case, `arr` the `kind == "array"`
numpy case. -/
inductive ExportData where
  | strs (vs : List HValue)
  | arr (a : NpArray)
deriving DecidableEq, Repr

/-- `_export_attrib_array(elems, attrib)`: string attributes become the raw
value list tagged `"txt"`; numeric attributes are coerced through
`np.asarray` with the dtype of the declaration and reshaped to
`(n, size)` when the declared width exceeds 1. -/
def _export_attrib_array (elems : List Element) (attrib : Attrib) :
    Except GeoError ExportData :=
  let name := attrib.name
  let size := attrib.size
  if attrib.dataType = .string then
    .ok (.strs (elems.map fun e => e.attribValue name))
  else
    match _attrib_dtype attrib with
    | .error e => .error e
    | .ok none => .error (.valueError "unreachable: no dtype for a non-string attribute")
    | .ok (some dtype) =>
      let values := elems.map fun e => e.attribValue name
      match npAsarray dtype values with
      | .error e => .error e
      | .ok arr =>
        if size > 1 then
          match arr.reshape [values.length, size] with
          | .error e => .error e
          | .ok arr2 => .ok (.arr arr2)
        else .ok (.arr arr)

/-! ### Manifest and archive structures -/

/-- One entry of `attrib_meta`: `{"type": ..., "size": ...}`. -/
structure AttrMeta where
  type : String
  size : Nat
deriving DecidableEq, Repr

/-- `meta["storage"]`. -/
structure StorageMeta where
  format : String
deriving DecidableEq, Repr

/-- `meta["counts"]`. -/
structure CountsMeta where
  points : Int
  primitives : Int
deriving DecidableEq, Repr

/-- The `meta` dictionary written as `metadata.json` (per-file layout) or
embedded in the archive (single layout).  Nested dictionaries keep their
Python insertion order as association lists. -/
structure GeoManifest where
  name : String
  frame : Int
  node : String
  hipFile : String
  houdini_version : String
  storage : StorageMeta
  counts : CountsMeta
  attributes : List (String × List (String × AttrMeta))
deriving DecidableEq

/-- The `single_obj` dictionary pickled by the single-archive layout: the
four domain maps (keys `"Point"`, `"Vertex"`, `"Primitive"`, `"Detail"`, in
that insertion order) and the `"metadata"` entry. -/
structure ArchiveObj where
  domains : List (String × List (String × ExportData))
  metadata : GeoManifest
deriving DecidableEq

/-! ### File-system trace and serializers -/

/-- The content of one written file.  `npyFile` is the dense binary `.npy`
encoding (dtype, shape, row-major bytes — exactly the fields of
`NpArray`); `pickleFile` a pickled array; `manifest` stands for the
metadata JSON text, `_format_json_braces(json.dumps(meta, indent=4))`,
kept structurally; `archive` the pickled single-archive object. -/
inductive FileContent where
  | text (s : String)
  | npyFile (a : NpArray)
  | pickleFile (a : NpArray)
  | manifest (m : GeoManifest)
  | archive (o : ArchiveObj)
deriving DecidableEq

/-- One file-system effect of an export call. -/
inductive FsEvent where
  | mkdir (path : String)
  | write (path : String) (content : FileContent)
deriving DecidableEq

instance exceptDecEq [DecidableEq ε] [DecidableEq α] : DecidableEq (Except ε α)
  | .ok a, .ok b => if h : a = b then .isTrue (by rw [h]) else .isFalse (by simp [h])
  | .ok _, .error _ => .isFalse (by simp)
  | .error _, .ok _ => .isFalse (by simp)
  | .error e, .error f => if h : e = f then .isTrue (by rw [h]) else .isFalse (by simp [h])

/-- The observable outcome of an export call: the ordered file-system trace
performed before returning or raising, and the returned path or error. -/
structure ExportOut where
  events : List FsEvent
  result : Except GeoError String
deriving DecidableEq

/-- The `r` rows of `c` cells each that numpy iteration (`for row in arr`)
yields on a rank-2 `(r, c)` array stored row-major. -/
def rowsOf (c : Nat) : Nat → List Int → List (List Int)
  | 0, _ => []
  | r + 1, data => data.take c :: rowsOf c r (data.drop c)

/-- `_save_ascii(path, arr)`: rank 1 writes one value per line; rank 2
writes space-joined rows, one per line; any other rank raises
`ASCII export unsupported ndim=...`.  (On the raising path CPython has
already opened — hence created — the file; the trace keeps only completed
writes.) -/
def _save_ascii (path : String) (arr : NpArray) : Except GeoError FsEvent :=
  match arr.shape with
  | [_n] =>
    .ok (.write path (.text (String.join (arr.data.map fun v => toString v ++ "\n"))))
  | [r, c] =>
    .ok (.write path (.text (String.join ((rowsOf c r arr.data).map fun row =>
      String.intercalate " " (row.map toString) ++ "\n"))))
  | s => .error (.unsupportedRank s.length)

/-- `_save_array(path_base, arr, fmt)`: dispatch on the storage format;
`"binary"` is accepted as an alias of `"npy"`; an unknown format raises
`Unsupported format`. -/
def _save_array (path_base : String) (arr : NpArray) (fmt : String) :
    Except GeoError (List FsEvent) :=
  if fmt = "ascii" then
    (_save_ascii (path_base ++ ".txt") arr).map fun e => [e]
  else if fmt = "npy" ∨ fmt = "binary" then
    .ok [.write (path_base ++ ".npy") (.npyFile arr)]
  else if fmt = "pickle" then
    .ok [.write (path_base ++ ".pkl") (.pickleFile arr)]
  else .error (.unsupportedFormat fmt)

/-! ### Orchestrator (`export_geo_schema`) -/

/-- Python dict assignment `m[k] = v`: replace in place if the key exists,
else append. -/
def dictSet (k : String) (v : α) : List (String × α) → List (String × α)
  | [] => [(k, v)]
  | (k', v') :: rest => if k' = k then (k, v) :: rest else (k', v') :: dictSet k v rest

/-- Update the value stored under an existing key, in place. -/
def dictUpdate (k : String) (f : α → α) : List (String × α) → List (String × α)
  | [] => []
  | (k', v) :: rest => if k' = k then (k', f v) :: rest else (k', v) :: dictUpdate k f rest

/-- The body of the `for attrib in attribs` loop for one attribute:
extract and coerce the values, and in per-file layout serialize them —
arrays through `_save_array`, string lists as a `.txt` file with one
`str(v)` per line.  Returns the write events, the in-memory data for
`single_obj`, and the `attrib_meta` entry. -/
def exportOneAttrib (single : Bool) (fmt folder : String) (elems : List Element)
    (attrib : Attrib) : Except GeoError (List FsEvent × ExportData × AttrMeta) :=
  match _export_attrib_array elems attrib with
  | .error e => .error e
  | .ok data =>
    let evs : Except GeoError (List FsEvent) :=
      if single then .ok []
      else
        match data with
        | .arr a => _save_array (folder ++ "/" ++ attrib.name) a fmt
        | .strs vs =>
          .ok [.write (folder ++ "/" ++ attrib.name ++ ".txt")
                (.text (String.join (vs.map fun v => pyStr v ++ "\n")))]
    match evs with
    | .error e => .error e
    | .ok evlist => .ok (evlist, data, ⟨_attrib_type_str attrib, attrib.size⟩)

/-- The `for attrib in attribs` loop over one domain's attribute table, in
provider-declared order.  The trace keeps the events of every attribute
processed before a failure; on success it also returns the domain's
`single_obj` and `attrib_meta` entries in processing order. -/
def exportAttribsLoop (single : Bool) (fmt folder : String) (elems : List Element) :
    List Attrib →
    List FsEvent × Except GeoError (List (String × ExportData) × List (String × AttrMeta))
  | [] => ([], .ok ([], []))
  | attrib :: rest =>
    match exportOneAttrib single fmt folder elems attrib with
    | .error e => ([], .error e)
    | .ok (evs, data, m) =>
      match exportAttribsLoop single fmt folder elems rest with
      | (evs', .error e) => (evs ++ evs', .error e)
      | (evs', .ok (ds, ms)) =>
        (evs ++ evs', .ok ((attrib.name, data) :: ds, (attrib.name, m) :: ms))

/-- The element sequence iterated for each domain: `geo.points()`, the
flattened per-primitive vertices, `geo.prims()`, or `[geo]` for Detail. -/
def elemsFor (geo : Geometry) (vertices : List Vertex) (prims : List Prim) :
    Domain → List Element
  | .point => geo.points
  | .vertex => vertices.map (·.toElement)
  | .prim => prims.map (·.toElement)
  | .global => [geo.detail]

/-- The `dirs` dictionary, in its Python insertion order. -/
def dirsFor (root : String) : List (Domain × String) :=
  [(.point, root ++ "/Point"), (.vertex, root ++ "/Vertex"),
   (.prim, root ++ "/Primitive"), (.global, root ++ "/Detail")]

/-- One iteration of the `for atype, folder in dirs.items()` loop. -/
def runDomain (single : Bool) (fmt : String) (geo : Geometry) (vertices : List Vertex)
    (prims : List Prim) (d : Domain × String) :
    List FsEvent × Except GeoError (List (String × ExportData) × List (String × AttrMeta)) :=
  exportAttribsLoop single fmt d.2 (elemsFor geo vertices prims d.1) (_get_attribs geo d.1)

/-- The whole `for atype, folder in dirs.items()` loop: domains in `dirs`
order, keyed by `folder.name`.  (The Python code pre-creates the four keys
of `attrib_meta` and `single_obj` and fills them by `folder.name`; since
`dirs` holds exactly those four folders in the same order, building the
association lists during the loop yields the same dictionaries.) -/
def domainsLoop (single : Bool) (fmt : String) (geo : Geometry) (vertices : List Vertex)
    (prims : List Prim) :
    List (Domain × String) →
    List FsEvent × Except GeoError
      (List (String × List (String × ExportData)) × List (String × List (String × AttrMeta)))
  | [] => ([], .ok ([], []))
  | d :: rest =>
    match runDomain single fmt geo vertices prims d with
    | (evs, .error e) => (evs, .error e)
    | (evs, .ok (ds, ms)) =>
      match domainsLoop single fmt geo vertices prims rest with
      | (evs', .error e) => (evs ++ evs', .error e)
      | (evs', .ok (dmap, mmap)) =>
        (evs ++ evs', .ok ((lastComponent d.2, ds) :: dmap, (lastComponent d.2, ms) :: mmap))

/-- The format strings accepted at line 176 of the source. -/
def validFormats : List String := ["ascii", "npy", "pickle", "single"]

/-- Lines 173–175: default `None` to `"npy"`, lowercase, and map the legacy
alias `"binary"` onto `"npy"`. -/
def resolve_format (format : Option String) : String :=
  let fmt := match format with
    | none => "npy"
    | some s => pyLower s
  if fmt = "binary" then "npy" else fmt

/-- `export_geo_schema` after frame and format resolution (source lines
176–314): validate the format, lay out the directories, run the
attribute-driven export, derive and serialize the topology, and write the
manifest (sidecar `metadata.json` in per-file layout, embedded in the
pickled archive in single layout). -/
def export_resolved (ctx : HouCtx) (sop_node : SopNode) (out_root name : String)
    (frame : Int) (fmt : String) : ExportOut :=
  if fmt ∈ validFormats then
    let single : Bool := fmt = "single"
    let geo := sop_node.geometry
    let root := out_root ++ "/" ++ name ++ "_F" ++ toString frame
    let dirs := dirsFor root
    let mkdirEvents : List FsEvent :=
      if single then [.mkdir out_root] else dirs.map fun d => .mkdir d.2
    let prims := geo.prims
    let vertices := prims.flatMap (·.vertices)
    match domainsLoop single fmt geo vertices prims dirs with
    | (evs, .error e) => ⟨mkdirEvents ++ evs, .error e⟩
    | (evs, .ok (singleMap, attribMeta)) =>
      let vertex_point_indices : NpArray :=
        ⟨.int32, [vertices.length], vertices.map (·.pointNumber)⟩
      let prim_vertex_counts : List Int := prims.map fun p => (p.vertices.length : Int)
      let vertexcount : NpArray := ⟨.int32, [prims.length], prim_vertex_counts⟩
      let rle := _rle_encode_int prim_vertex_counts
      let nvertices_rle : NpArray := ⟨.int32, [rle.length], rle⟩
      let singleMap := dictUpdate "Vertex"
        (fun m => dictSet "nvertices_rle" (.arr nvertices_rle)
          (dictSet "vertexcount" (.arr vertexcount)
            (dictSet "pointref" (.arr vertex_point_indices) m))) singleMap
      let vdir := root ++ "/Vertex"
      let meta : GeoManifest :=
        { name := name
          frame := frame
          node := sop_node.path
          hipFile := ctx.hipFilePath
          houdini_version := ctx.applicationVersionString
          storage := ⟨fmt⟩
          counts := ⟨geo.pointcount, geo.primitivecount⟩
          attributes := attribMeta }
      if single then
        let single_obj : ArchiveObj := ⟨singleMap, meta⟩
        let out_path := pyWithSuffix root ".pkl"
        ⟨mkdirEvents ++ evs ++ [.write out_path (.archive single_obj)], .ok out_path⟩
      else
        match _save_array (vdir ++ "/pointref") vertex_point_indices fmt with
        | .error e => ⟨mkdirEvents ++ evs, .error e⟩
        | .ok ev1 =>
          match _save_array (vdir ++ "/vertexcount") vertexcount fmt with
          | .error e => ⟨mkdirEvents ++ evs ++ ev1, .error e⟩
          | .ok ev2 =>
            match _save_array (vdir ++ "/nvertices_rle") nvertices_rle fmt with
            | .error e => ⟨mkdirEvents ++ evs ++ ev1 ++ ev2, .error e⟩
            | .ok ev3 =>
              ⟨mkdirEvents ++ evs ++ ev1 ++ ev2 ++ ev3 ++
                  [.write (root ++ "/metadata.json") (.manifest meta)],
                .ok root⟩
  else ⟨[], .error (.unsupportedFormat fmt)⟩

/-- `export_geo_schema(sop_node, out_root, name, frame, format)`: resolve a
`None` frame to `int(hou.frame())` and the format name to its canonical
lowercase form, then run the resolved export. -/
def export_geo_schema (ctx : HouCtx) (sop_node : SopNode) (out_root name : String)
    (frame : Option Int) (format : Option String) : ExportOut :=
  export_resolved ctx sop_node out_root name
    (match frame with
     | none => pyInt ctx.frame
     | some f => f)
    (resolve_format format)

/-! ### Spec-side definitions (for refinement-style comparisons) -/

/-- Spec-side description of one step of the brace reflow, following the
claim's words: a line whose right-stripped form ends in `": {"` is replaced
by that line with the trailing brace (and its separating space) removed,
followed by a line holding the opening brace alone at the original
indentation; every other line is emitted unchanged. -/
def reflowLineSpec (line : String) : List String :=
  if pyEndsWith (pyRstrip line) ": \x7b" then
    [pyDropRight (pyRstrip line) 2, leadingWhitespace line ++ "\x7b"]
  else [line]

/-- The `hou` value contract for a numeric attribute of declared width
`size`: width 1 yields numeric scalars, larger widths yield numeric
`size`-tuples. -/
def HValue.conformsTo (v : HValue) (size : Nat) : Bool :=
  if size = 1 then v.isScalar
  else
    match v with
    | .tuple xs => xs.length == size
    | _ => false

/-- Is a file-system event one of the per-attribute / topology payload
events (a mkdir, or a write of text, `.npy`, or pickled-array content)?
The manifest and archive writes are the only events that are not plain. -/
def FsEvent.plain : FsEvent → Bool
  | .mkdir _ => true
  | .write _ (.text _) => true
  | .write _ (.npyFile _) => true
  | .write _ (.pickleFile _) => true
  | _ => false

/-- The write events of a successful per-attribute step (empty on error). -/
def okTrace : Except GeoError (List FsEvent × ExportData × AttrMeta) → List FsEvent
  | .ok (evs, _, _) => evs
  | .error _ => []

/-! ### Sample data used by the witness theorems -/

/-- An element whose every attribute lookup returns `v`. -/
def constElem (v : HValue) : Element := ⟨fun _ => v⟩

/-- A vertex referencing point `n`. -/
def sampleVertex (n : Int) : Vertex := ⟨constElem (.scalar n), n⟩

/-- A small concrete geometry: two points with a width-3 float attribute,
one 2-vertex primitive with a width-1 int attribute, one string detail
attribute. -/
def sampleGeo : Geometry :=
  { points := [constElem (.tuple [1, 2, 3]), constElem (.tuple [4, 5, 6])]
    prims := [⟨constElem (.scalar 7), [sampleVertex 0, sampleVertex 1]⟩]
    pointAttribs := [⟨"P", .float, 3⟩]
    vertexAttribs := []
    primAttribs := [⟨"id", .int, 1⟩]
    globalAttribs := [⟨"note", .string, 1⟩]
    detail := constElem (.str "hello")
    pointcount := 2
    primitivecount := 1 }

/-- The sample geometry with a dict-typed attribute appended after a good
one on the Point domain. -/
def sampleGeoBad : Geometry :=
  { sampleGeo with pointAttribs := [⟨"P", .float, 3⟩, ⟨"style", .dict, 1⟩] }

/-- A sample SOP node. -/
def sampleSop : SopNode := ⟨sampleGeo, "/obj/geo1/OUT"⟩

/-- A sample SOP node over the bad geometry. -/
def sampleSopBad : SopNode := ⟨sampleGeoBad, "/obj/geo1/OUT"⟩

/-- A sample ambient session: current frame 7.5, so `int(hou.frame())`
is 7. -/
def sampleCtx : HouCtx := ⟨(15 : Rat) / 2, "scene.hip", "20.5.278"⟩

/-! ## Theorems -/

/-! ### C1: RLE round-trip -/

theorem rle_decode_rleLoop (vs : List Int) :
    ∀ (current : Int) (run : Nat),
      rle_decode (rleLoop current run vs) = List.replicate run current ++ vs := by
  induction vs with
  | nil =>
    intro current run
    simp [rleLoop, rle_decode]
  | cons v vs ih =>
    intro current run
    by_cases h : v = current
    · subst h
      rw [rleLoop, if_pos rfl, ih v (run + 1), List.replicate_succ',
        List.append_assoc]
      simp
    · rw [rleLoop, if_neg h]
      show rle_decode (current :: (run : Int) :: rleLoop v 1 vs) = _
      rw [rle_decode, ih v 1]
      simp

/-- C1: decoding the output of `_rle_encode_int` — reading it as
consecutive `(value, runLength)` pairs and expanding each value
`runLength` times — reproduces exactly the original sequence, for every
finite sequence of integers (empty, all-equal and all-distinct included). -/
theorem c1_rle_encode_round_trip (values : List Int) :
    rle_decode (_rle_encode_int values) = values := by
  cases values with
  | nil => rfl
  | cons v rest =>
    show rle_decode (rleLoop v 1 rest) = v :: rest
    rw [rle_decode_rleLoop rest v 1]
    simp

/-! ### C8: metadata brace reflow -/

theorem format_json_loop_eq (l : List String) :
    ∀ acc : List String,
      l.foldl
        (fun acc line =>
          let stripped := pyRstrip line
          if pyEndsWith stripped ": \x7b" then
            let indent := leadingWhitespace line
            acc ++ [pyDropRight stripped 2, indent ++ "\x7b"]
          else acc ++ [line])
        acc = acc ++ l.flatMap reflowLineSpec := by
  induction l with
  | nil => intro acc; simp
  | cons x xs ih =>
    intro acc
    rw [List.foldl_cons, ih]
    show (if pyEndsWith (pyRstrip x) ": \x7b" then
        acc ++ [pyDropRight (pyRstrip x) 2, leadingWhitespace x ++ "\x7b"]
      else acc ++ [x]) ++ xs.flatMap reflowLineSpec = _
    rw [List.flatMap_cons, reflowLineSpec]
    split <;> simp

/-- C8: `_format_json_braces` is exactly the deterministic per-line
normalization the claim describes: every line of the input (Python
`splitlines`) whose right-stripped form ends in `": {"` is replaced by the
right-stripped line with the trailing brace removed followed by a line
holding the opening brace at the same indentation; all other lines are
emitted unchanged; the lines are rejoined with `"\n"` plus a final
newline.  Being a pure function of the input text, the output is
byte-reproducible. -/
theorem c8_format_json_braces_reflow (text : String) :
    _format_json_braces text =
      String.intercalate "\n" ((pySplitlines text).flatMap reflowLineSpec) ++ "\n" := by
  unfold _format_json_braces
  dsimp only
  rw [format_json_loop_eq]
  simp

/-! ### C6: ascii serializer rank handling -/

/-- C6 counterexample: the claim "fails with UnsupportedRank exactly when
the array's rank is greater than 2" is false at the rank-0 array
`np.asarray(5)` (shape `[]`): `_save_ascii` raises on it even though its
rank is not greater than 2. -/
theorem c6_counterexample_rank0 :
    ¬(((_save_ascii "out/x.txt" ⟨.int32, [], [5]⟩).isOk = false) ↔
        NpArray.ndim ⟨.int32, [], [5]⟩ > 2) := by
  decide

/-- C6 amended: for every array given to the ascii serializer, a rank-1
array is written one value per line and a rank-2 array as space-joined
columns with one row per line, and the serializer fails with the
UnsupportedRank error exactly when the rank is **not 1 and not 2** (so for
rank 0 as well as every rank greater than 2). -/
theorem c6_save_ascii_rank_dispatch (path : String) (arr : NpArray) :
    _save_ascii path arr =
      if arr.ndim = 1 then
        .ok (.write path (.text (String.join (arr.data.map fun v => toString v ++ "\n"))))
      else if arr.ndim = 2 then
        .ok (.write path (.text (String.join
          ((rowsOf (arr.shape.getD 1 0) (arr.shape.getD 0 0) arr.data).map fun row =>
            String.intercalate " " (row.map toString) ++ "\n"))))
      else .error (.unsupportedRank arr.ndim) := by
  obtain ⟨dt, shape, data⟩ := arr
  match shape with
  | [] => simp [_save_ascii, NpArray.ndim]
  | [n] => simp [_save_ascii, NpArray.ndim]
  | [r, c] => simp [_save_ascii, NpArray.ndim]
  | a :: b :: c :: rest => simp [_save_ascii, NpArray.ndim]

/-! ### C2: numeric attribute export shape -/

theorem npAsarray_scalars (dtype : DType) (values : List HValue)
    (h : ∀ v ∈ values, v.isScalar = true) :
    npAsarray dtype values = .ok ⟨dtype, [values.length], values.map HValue.scalarVal⟩ := by
  unfold npAsarray
  rw [if_pos (List.all_eq_true.mpr h)]

theorem flatMap_tupleVals_length (values : List HValue) (w : Nat)
    (h : ∀ v ∈ values, (HValue.tupleVals v).length = w) :
    (values.flatMap HValue.tupleVals).length = values.length * w := by
  induction values with
  | nil => simp
  | cons v vs ih =>
    simp only [List.flatMap_cons, List.length_append, List.length_cons]
    rw [h v (by simp), ih fun u hu => h u (by simp [hu])]
    ring

theorem npAsarray_nil (dtype : DType) : npAsarray dtype [] = .ok ⟨dtype, [0], []⟩ := rfl

theorem conformsTo_one (v : HValue) (h : v.conformsTo 1 = true) : v.isScalar = true := by
  unfold HValue.conformsTo at h
  rw [if_pos rfl] at h
  exact h

theorem conformsTo_tuple (v : HValue) (size : Nat) (h1 : size ≠ 1)
    (h : v.conformsTo size = true) : ∃ xs, v = .tuple xs ∧ xs.length = size := by
  cases v with
  | tuple xs =>
    refine ⟨xs, rfl, ?_⟩
    unfold HValue.conformsTo at h
    rw [if_neg h1] at h
    simpa using h
  | scalar x =>
    unfold HValue.conformsTo at h
    rw [if_neg h1] at h
    simp at h
  | str s =>
    unfold HValue.conformsTo at h
    rw [if_neg h1] at h
    simp at h

theorem npAsarray_tuples (dtype : DType) (v0 : HValue) (vs : List HValue) (w : Nat)
    (h : ∀ v ∈ v0 :: vs, ∃ xs, v = .tuple xs ∧ xs.length = w) :
    npAsarray dtype (v0 :: vs) =
      .ok ⟨dtype, [vs.length + 1, w], (v0 :: vs).flatMap HValue.tupleVals⟩ := by
  obtain ⟨xs0, rfl, hxs0⟩ := h v0 (by simp)
  have hscal : ¬((HValue.tuple xs0 :: vs).all HValue.isScalar = true) := by
    intro hall
    have := List.all_eq_true.mp hall (HValue.tuple xs0) (by simp)
    simp [HValue.isScalar] at this
  have hwidth : ((HValue.tuple xs0 :: vs).all fun u =>
      match u with
      | .tuple ys => ys.length == xs0.length
      | _ => false) = true := by
    refine List.all_eq_true.mpr ?_
    intro v hv
    obtain ⟨ys, rfl, hys⟩ := h v hv
    simp [hys, hxs0]
  unfold npAsarray tupleWidth?
  rw [if_neg hscal]
  dsimp only
  rw [if_pos hwidth]
  simp [hxs0]

theorem reshape_zero (dt : DType) (s : Nat) :
    NpArray.reshape ⟨dt, [0], []⟩ [0, s] = .ok ⟨dt, [0, s], []⟩ := by
  unfold NpArray.reshape
  rw [if_pos (by simp)]

theorem reshape_mul (dt : DType) (n w : Nat) (flat : List Int)
    (hlen : flat.length = n * w) :
    NpArray.reshape ⟨dt, [n, w], flat⟩ [n, w] = .ok ⟨dt, [n, w], flat⟩ := by
  unfold NpArray.reshape
  rw [if_pos (by simp [hlen, Nat.mul_comm])]

/-- C2: for every Integer- or Float-typed attribute of declared width
`w ≥ 1` whose element values obey the `hou` width contract,
`_export_attrib_array` returns a numeric array whose dtype matches the
declared type and whose shape is `(n, w)` when `w > 1` and `(n)` when
`w = 1`, with `n` the number of live elements and `w` taken from the
attribute declaration. -/
theorem c2_numeric_attrib_shape (elems : List Element) (attrib : Attrib)
    (hty : attrib.dataType = .int ∨ attrib.dataType = .float)
    (hsz : 1 ≤ attrib.size)
    (hconf : ∀ e ∈ elems, (e.attribValue attrib.name).conformsTo attrib.size = true) :
    ∃ data : List Int,
      _export_attrib_array elems attrib =
        .ok (.arr ⟨(if attrib.dataType = .int then .int32 else .float32),
                   (if attrib.size > 1 then [elems.length, attrib.size] else [elems.length]),
                   data⟩) := by
  have hne : ¬(attrib.dataType = .string) := by
    rcases hty with h | h <;> simp [h]
  have hdt : _attrib_dtype attrib =
      .ok (some (if attrib.dataType = .int then .int32 else .float32)) := by
    rcases hty with h | h <;> simp [_attrib_dtype, h]
  by_cases h1 : attrib.size = 1
  · refine ⟨(elems.map fun e => e.attribValue attrib.name).map HValue.scalarVal, ?_⟩
    have hall : ∀ v ∈ elems.map fun e => e.attribValue attrib.name, v.isScalar = true := by
      intro v hv
      obtain ⟨e, he, rfl⟩ := List.mem_map.mp hv
      exact conformsTo_one _ (h1 ▸ hconf e he)
    unfold _export_attrib_array
    dsimp only
    rw [if_neg hne, hdt]
    dsimp only
    rw [npAsarray_scalars _ _ hall]
    dsimp only
    rw [if_neg (by omega : ¬attrib.size > 1), if_neg (by omega : ¬attrib.size > 1)]
    simp
  · have h2 : 1 < attrib.size := lt_of_le_of_ne hsz (Ne.symm h1)
    have htup : ∀ v ∈ elems.map fun e => e.attribValue attrib.name,
        ∃ xs, v = .tuple xs ∧ xs.length = attrib.size := by
      intro v hv
      obtain ⟨e, he, rfl⟩ := List.mem_map.mp hv
      exact conformsTo_tuple _ _ h1 (hconf e he)
    cases elems with
    | nil =>
      refine ⟨[], ?_⟩
      unfold _export_attrib_array
      dsimp only
      rw [if_neg hne, hdt]
      dsimp only [List.map_nil]
      rw [npAsarray_nil]
      dsimp only
      rw [if_pos h2, if_pos h2]
      dsimp only [List.length_nil]
      rw [reshape_zero]
    | cons e es =>
      refine ⟨(e.attribValue attrib.name ::
        es.map fun e => e.attribValue attrib.name).flatMap HValue.tupleVals, ?_⟩
      have hlen : ((e.attribValue attrib.name ::
          es.map fun e => e.attribValue attrib.name).flatMap HValue.tupleVals).length =
          (es.length + 1) * attrib.size := by
        have := flatMap_tupleVals_length
          (e.attribValue attrib.name :: es.map fun e => e.attribValue attrib.name)
          attrib.size ?_
        · simpa using this
        · intro v hv
          obtain ⟨xs, rfl, hxs⟩ := htup v (by simpa using hv)
          simpa [HValue.tupleVals] using hxs
      unfold _export_attrib_array
      dsimp only
      rw [if_neg hne, hdt]
      dsimp only [List.map_cons]
      rw [npAsarray_tuples _ _ _ attrib.size (by
        intro v hv
        exact htup v (by simpa using hv))]
      dsimp only
      rw [if_pos h2, if_pos h2]
      simp only [List.length_cons, List.length_map]
      rw [reshape_mul _ _ _ _ hlen]

/-- C2 witness: a width-3 float attribute over two elements is exported
with shape `(2, 3)` and dtype float32. -/
theorem c2_numeric_attrib_shape_witness :
    (((Attrib.mk "P" .float 3).dataType = .int ∨ (Attrib.mk "P" .float 3).dataType = .float) ∧
      1 ≤ (Attrib.mk "P" .float 3).size ∧
      ∀ e ∈ [constElem (.tuple [1, 2, 3]), constElem (.tuple [4, 5, 6])],
        (e.attribValue (Attrib.mk "P" .float 3).name).conformsTo
          (Attrib.mk "P" .float 3).size = true) ∧
    ∃ data : List Int,
      _export_attrib_array [constElem (.tuple [1, 2, 3]), constElem (.tuple [4, 5, 6])]
          (Attrib.mk "P" .float 3) =
        .ok (.arr ⟨(if (Attrib.mk "P" .float 3).dataType = .int then .int32 else .float32),
                   (if (Attrib.mk "P" .float 3).size > 1 then
                      [[constElem (HValue.tuple [1, 2, 3]),
                        constElem (HValue.tuple [4, 5, 6])].length,
                       (Attrib.mk "P" .float 3).size]
                    else
                      [[constElem (HValue.tuple [1, 2, 3]),
                        constElem (HValue.tuple [4, 5, 6])].length]),
                   data⟩) :=
  ⟨⟨Or.inr rfl, by decide, by decide⟩,
    c2_numeric_attrib_shape _ _ (Or.inr rfl) (by decide) (by decide)⟩

/-! ### C3: unsupported format fails before any I/O -/

/-- C3: when the resolved format name (after lowercasing and alias
resolution) is not recognized, `export_geo_schema` raises UnsupportedFormat
with an empty file-system trace: no directory is created and no file is
written. -/
theorem c3_unsupported_format_no_io (ctx : HouCtx) (sop : SopNode) (out_root name : String)
    (frame : Option Int) (format : Option String)
    (h : resolve_format format ∉ validFormats) :
    export_geo_schema ctx sop out_root name frame format =
      ⟨[], .error (.unsupportedFormat (resolve_format format))⟩ := by
  unfold export_geo_schema export_resolved
  rw [if_neg h]

/-- C3 witness: exporting with format `"exr"` performs no file-system
event and fails with UnsupportedFormat. -/
theorem c3_unsupported_format_no_io_witness :
    resolve_format (some "exr") ∉ validFormats ∧
    export_geo_schema sampleCtx sampleSop "out" "geo" none (some "exr") =
      ⟨[], .error (.unsupportedFormat (resolve_format (some "exr")))⟩ :=
  ⟨by decide, c3_unsupported_format_no_io _ _ _ _ _ _ (by decide)⟩

/-! ### C4: "binary" alias equivalence -/

/-- C4: with every provider snapshot and identical remaining parameters,
exporting with format name `"binary"` produces exactly the same trace and
result as exporting with the canonical dense-binary format name `"npy"`;
the low-level serializer likewise treats the two names identically. -/
theorem c4_binary_alias_equivalence (ctx : HouCtx) (sop : SopNode) (out_root name : String)
    (frame : Option Int) :
    export_geo_schema ctx sop out_root name frame (some "binary") =
      export_geo_schema ctx sop out_root name frame (some "npy") ∧
    ∀ (path_base : String) (arr : NpArray),
      _save_array path_base arr "binary" = _save_array path_base arr "npy" := by
  constructor
  · unfold export_geo_schema
    rw [show resolve_format (some "binary") = resolve_format (some "npy") from by decide]
  · intro p a
    rfl

/-! ### C5: string attributes always take the text path -/

/-- C5: in per-file layout, a String-typed attribute is always written as a
text file (one `str(v)` per line) under `<folder>/<name>.txt`, whatever
storage format was selected for the export; its data is the raw value
list tagged `"txt"`, and no dense-binary or pickle write occurs for it. -/
theorem c5_string_attrib_text_path (fmt folder : String) (elems : List Element)
    (attrib : Attrib) (h : attrib.dataType = .string) :
    exportOneAttrib false fmt folder elems attrib =
      .ok ([.write (folder ++ "/" ++ attrib.name ++ ".txt")
             (.text (String.join ((elems.map fun e => e.attribValue attrib.name).map
               fun v => pyStr v ++ "\n")))],
           .strs (elems.map fun e => e.attribValue attrib.name),
           ⟨"string", attrib.size⟩) := by
  unfold exportOneAttrib _export_attrib_array _attrib_type_str
  dsimp only
  rw [if_pos h, h]
  simp

/-- C5 witness: a string attribute is written through the text path even
when the dense-binary format `"npy"` is selected. -/
theorem c5_string_attrib_text_path_witness :
    (Attrib.mk "note" AttribData.string 1).dataType = .string ∧
    exportOneAttrib false "npy" "out/geo_F7/Detail" [constElem (.str "hello")]
        (Attrib.mk "note" AttribData.string 1) =
      .ok ([.write ("out/geo_F7/Detail" ++ "/" ++ (Attrib.mk "note" AttribData.string 1).name ++ ".txt")
             (.text (String.join (([constElem (.str "hello")].map
               fun e => e.attribValue (Attrib.mk "note" AttribData.string 1).name).map
               fun v => pyStr v ++ "\n")))],
           .strs ([constElem (.str "hello")].map
             fun e => e.attribValue (Attrib.mk "note" AttribData.string 1).name),
           ⟨"string", (Attrib.mk "note" AttribData.string 1).size⟩) :=
  ⟨rfl, c5_string_attrib_text_path _ _ _ _ rfl⟩

/-! ### C7: unsupported attribute type fails at that attribute -/

theorem exportOneAttrib_dict (single : Bool) (fmt folder : String) (elems : List Element)
    (attrib : Attrib) (h : attrib.dataType = .dict) :
    exportOneAttrib single fmt folder elems attrib =
      .error (.unsupportedAttribType .dict) := by
  unfold exportOneAttrib _export_attrib_array _attrib_dtype
  rw [h]
  dsimp only
  rw [if_neg (by simp)]

theorem exportAttribsLoop_error_after (single : Bool) (fmt folder : String)
    (elems : List Element) (pre : List Attrib) (bad : Attrib) (rest : List Attrib)
    (err : GeoError)
    (hpre : ∀ a ∈ pre, (exportOneAttrib single fmt folder elems a).isOk = true)
    (hbad : exportOneAttrib single fmt folder elems bad = .error err) :
    exportAttribsLoop single fmt folder elems (pre ++ bad :: rest) =
      (pre.flatMap fun a => okTrace (exportOneAttrib single fmt folder elems a),
        .error err) := by
  induction pre with
  | nil =>
    simp only [List.nil_append, List.flatMap_nil]
    rw [exportAttribsLoop, hbad]
  | cons a pre ih =>
    have ha := hpre a (by simp)
    cases hr : exportOneAttrib single fmt folder elems a with
    | error e =>
      rw [hr] at ha
      simp [Except.isOk, Except.toBool] at ha
    | ok r =>
      obtain ⟨evs, data, m⟩ := r
      rw [List.cons_append, exportAttribsLoop, hr]
      dsimp only
      rw [ih fun x hx => hpre x (by simp [hx])]
      simp [okTrace, hr]

theorem domainsLoop_error_after (single : Bool) (fmt : String) (geo : Geometry)
    (vertices : List Vertex) (prims : List Prim)
    (dBefore : List (Domain × String)) (dBad : Domain × String)
    (dAfter : List (Domain × String)) (evsB : List FsEvent) (err : GeoError)
    (hBefore : ∀ d ∈ dBefore, (runDomain single fmt geo vertices prims d).2.isOk = true)
    (hBad : runDomain single fmt geo vertices prims dBad = (evsB, .error err)) :
    domainsLoop single fmt geo vertices prims (dBefore ++ dBad :: dAfter) =
      ((dBefore.flatMap fun d => (runDomain single fmt geo vertices prims d).1) ++ evsB,
        .error err) := by
  induction dBefore with
  | nil =>
    simp only [List.nil_append, List.flatMap_nil]
    rw [domainsLoop, hBad]
  | cons d ds ih =>
    have hd := hBefore d (by simp)
    cases hr : runDomain single fmt geo vertices prims d with
    | mk evs r =>
      cases r with
      | error e =>
        rw [hr] at hd
        simp [Except.isOk, Except.toBool] at hd
      | ok v =>
        obtain ⟨ds', ms'⟩ := v
        rw [List.cons_append, domainsLoop, hr]
        dsimp only
        rw [ih fun x hx => hBefore x (by simp [hx])]
        simp [hr, List.append_assoc]

/-- C7: if an attribute whose declared type is outside
{Integer, Float, String} is met in provider-declared order (all domains
before its own succeeding, all earlier attributes of its own domain
succeeding), the export fails with UnsupportedAttributeType at that
attribute; the trace of a per-file export still holds the directory
creations and every file written for the earlier domains and for the
earlier attributes of the failing domain — nothing already written is
discarded. -/
theorem c7_unsupported_attrib_type_keeps_prior_files (ctx : HouCtx) (sop : SopNode)
    (out_root name : String) (fr : Int) (fmt : String) (dom : Domain) (folder : String)
    (dBefore dAfter : List (Domain × String)) (pre rest : List Attrib) (bad : Attrib)
    (hv : fmt ∈ validFormats) (hns : fmt ≠ "single")
    (hsplit : dirsFor (out_root ++ "/" ++ name ++ "_F" ++ toString fr) =
      dBefore ++ (dom, folder) :: dAfter)
    (hBefore : ∀ d ∈ dBefore,
      (runDomain false fmt sop.geometry (sop.geometry.prims.flatMap fun p => p.vertices)
        sop.geometry.prims d).2.isOk = true)
    (hattrs : _get_attribs sop.geometry dom = pre ++ bad :: rest)
    (hpre : ∀ a ∈ pre,
      (exportOneAttrib false fmt folder
        (elemsFor sop.geometry (sop.geometry.prims.flatMap fun p => p.vertices)
          sop.geometry.prims dom) a).isOk = true)
    (hbad : bad.dataType = .dict) :
    export_resolved ctx sop out_root name fr fmt =
      ⟨((dirsFor (out_root ++ "/" ++ name ++ "_F" ++ toString fr)).map fun d => .mkdir d.2) ++
          ((dBefore.flatMap fun d =>
              (runDomain false fmt sop.geometry
                (sop.geometry.prims.flatMap fun p => p.vertices) sop.geometry.prims d).1) ++
            (pre.flatMap fun a =>
              okTrace (exportOneAttrib false fmt folder
                (elemsFor sop.geometry (sop.geometry.prims.flatMap fun p => p.vertices)
                  sop.geometry.prims dom) a))),
        .error (.unsupportedAttribType .dict)⟩ := by
  have hBadDom : runDomain false fmt sop.geometry
      (sop.geometry.prims.flatMap fun p => p.vertices) sop.geometry.prims (dom, folder) =
      (pre.flatMap fun a =>
        okTrace (exportOneAttrib false fmt folder
          (elemsFor sop.geometry (sop.geometry.prims.flatMap fun p => p.vertices)
            sop.geometry.prims dom) a),
        .error (.unsupportedAttribType .dict)) := by
    unfold runDomain
    dsimp only
    rw [hattrs]
    exact exportAttribsLoop_error_after _ _ _ _ _ _ _ _ hpre
      (exportOneAttrib_dict _ _ _ _ _ hbad)
  unfold export_resolved
  rw [if_pos hv]
  dsimp only
  rw [decide_eq_false hns]
  rw [hsplit, domainsLoop_error_after _ _ _ _ _ _ _ _ _ _ hBefore hBadDom]
  simp

/-- C7 witness: with a good float attribute followed by a dict-typed
attribute on the Point domain, a per-file `"npy"` export fails with
UnsupportedAttributeType while keeping the directory creations and the
earlier attribute's written file in the trace. -/
theorem c7_unsupported_attrib_type_keeps_prior_files_witness :
    (("npy" : String) ∈ validFormats ∧ ("npy" : String) ≠ "single" ∧
      dirsFor ("out" ++ "/" ++ "geo" ++ "_F" ++ toString (7 : Int)) =
        [] ++ (Domain.point, "out/geo_F7/Point") ::
          [(Domain.vertex, "out/geo_F7/Vertex"), (Domain.prim, "out/geo_F7/Primitive"),
           (Domain.global, "out/geo_F7/Detail")] ∧
      (∀ d ∈ ([] : List (Domain × String)),
        (runDomain false "npy" sampleSopBad.geometry
          (sampleSopBad.geometry.prims.flatMap fun p => p.vertices)
          sampleSopBad.geometry.prims d).2.isOk = true) ∧
      _get_attribs sampleSopBad.geometry .point =
        [Attrib.mk "P" .float 3] ++ Attrib.mk "style" .dict 1 :: [] ∧
      (∀ a ∈ [Attrib.mk "P" .float 3],
        (exportOneAttrib false "npy" "out/geo_F7/Point"
          (elemsFor sampleSopBad.geometry
            (sampleSopBad.geometry.prims.flatMap fun p => p.vertices)
            sampleSopBad.geometry.prims .point) a).isOk = true) ∧
      (Attrib.mk "style" .dict 1).dataType = .dict) ∧
    export_resolved sampleCtx sampleSopBad "out" "geo" 7 "npy" =
      ⟨((dirsFor ("out" ++ "/" ++ "geo" ++ "_F" ++ toString (7 : Int))).map
            fun d => .mkdir d.2) ++
          ((([] : List (Domain × String)).flatMap fun d =>
              (runDomain false "npy" sampleSopBad.geometry
                (sampleSopBad.geometry.prims.flatMap fun p => p.vertices)
                sampleSopBad.geometry.prims d).1) ++
            ([Attrib.mk "P" .float 3].flatMap fun a =>
              okTrace (exportOneAttrib false "npy" "out/geo_F7/Point"
                (elemsFor sampleSopBad.geometry
                  (sampleSopBad.geometry.prims.flatMap fun p => p.vertices)
                  sampleSopBad.geometry.prims .point) a))),
        .error (.unsupportedAttribType .dict)⟩ :=
  ⟨⟨by decide, by decide, by decide, by decide, by decide, by decide, rfl⟩,
    c7_unsupported_attrib_type_keeps_prior_files sampleCtx sampleSopBad "out" "geo" 7 "npy"
      .point "out/geo_F7/Point" []
      [(Domain.vertex, "out/geo_F7/Vertex"), (Domain.prim, "out/geo_F7/Primitive"),
       (Domain.global, "out/geo_F7/Detail")]
      [Attrib.mk "P" .float 3] [] (Attrib.mk "style" .dict 1)
      (by decide) (by decide) (by decide) (by decide) (by decide) (by decide) rfl⟩

/-! ### C9: output root naming and layout dichotomy -/

/-- C9 counterexample: the claim that the single-archive layout *appends*
the archive extension to the root fails for a caller-supplied name holding
a dot: with name `"a.b"` and frame 7 the root is `out/a.b_F7`, and
`Path.with_suffix(".pkl")` replaces its dot-suffix `.b_F7`, so the export
returns `out/a.pkl` — not `out/a.b_F7.pkl` (and the frame tag is gone from
the returned path). -/
theorem c9_counterexample_dotted_name :
    (export_resolved sampleCtx sampleSop "out" "a.b" 7 "single").result =
      .ok "out/a.pkl" ∧
    "out/a.pkl" ≠ "out" ++ "/" ++ "a.b" ++ "_F" ++ toString (7 : Int) ++ ".pkl" :=
  ⟨by decide, by decide⟩

/-- C9 amended: for every export call with caller-supplied name and
resolved frame, the output root is `<out_root>/<name>_F<frame>`.  Exactly
one of the two layouts applies, decided by the format: the single-archive
layout (`fmt = "single"`) creates only the caller's output directory and
returns the root transformed by Python's `Path.with_suffix(".pkl")` —
which appends `.pkl` when the root's final component has no dot-suffix
(in particular whenever the name is dot-free) and replaces the existing
dot-suffix otherwise — while the per-file layout first creates the four
domain subfolders under the root, treats the root as a directory and
returns it. -/
theorem c9_output_root_and_layouts (ctx : HouCtx) (sop : SopNode) (out_root name : String)
    (fr : Int) (fmt : String) (hv : fmt ∈ validFormats) :
    if fmt = "single" then
      (export_resolved ctx sop out_root name fr fmt).events.take 1 = [.mkdir out_root] ∧
      ∀ p, (export_resolved ctx sop out_root name fr fmt).result = .ok p →
        p = pyWithSuffix (out_root ++ "/" ++ name ++ "_F" ++ toString fr) ".pkl"
    else
      (export_resolved ctx sop out_root name fr fmt).events.take 4 =
        [.mkdir (out_root ++ "/" ++ name ++ "_F" ++ toString fr ++ "/Point"),
         .mkdir (out_root ++ "/" ++ name ++ "_F" ++ toString fr ++ "/Vertex"),
         .mkdir (out_root ++ "/" ++ name ++ "_F" ++ toString fr ++ "/Primitive"),
         .mkdir (out_root ++ "/" ++ name ++ "_F" ++ toString fr ++ "/Detail")] ∧
      ∀ p, (export_resolved ctx sop out_root name fr fmt).result = .ok p →
        p = out_root ++ "/" ++ name ++ "_F" ++ toString fr := by
  by_cases hs : fmt = "single"
  · rw [if_pos hs]
    subst hs
    unfold export_resolved
    rw [if_pos hv]
    dsimp only
    rw [show (decide ("single" = "single")) = true from by decide]
    simp only [eq_self_iff_true, if_true]
    split
    · exact ⟨rfl, fun p hp => Except.noConfusion hp⟩
    · constructor
      · rfl
      · intro p hp
        have hp' : Except.ok (pyWithSuffix (out_root ++ "/" ++ name ++ "_F" ++ toString fr)
            ".pkl") = Except.ok p := hp
        injection hp' with h
        exact h.symm
  · rw [if_neg hs]
    unfold export_resolved
    rw [if_pos hv]
    dsimp only
    rw [decide_eq_false hs]
    simp only [Bool.false_eq_true, if_false]
    split
    · exact ⟨rfl, fun p hp => Except.noConfusion hp⟩
    · split
      · exact ⟨rfl, fun p hp => Except.noConfusion hp⟩
      · split
        · exact ⟨rfl, fun p hp => Except.noConfusion hp⟩
        · split
          · exact ⟨rfl, fun p hp => Except.noConfusion hp⟩
          · constructor
            · rfl
            · intro p hp
              have hp' : Except.ok (out_root ++ "/" ++ name ++ "_F" ++ toString fr) =
                  Except.ok p := hp
              injection hp' with h
              exact h.symm

/-- C9 witness: a per-file `"npy"` export of the sample geometry creates
the four domain subfolders under `out/geo_F7` and returns that root. -/
theorem c9_output_root_and_layouts_witness :
    ("npy" : String) ∈ validFormats ∧
    (if ("npy" : String) = "single" then
      (export_resolved sampleCtx sampleSop "out" "geo" 7 "npy").events.take 1 =
        [.mkdir "out"] ∧
      ∀ p, (export_resolved sampleCtx sampleSop "out" "geo" 7 "npy").result = .ok p →
        p = pyWithSuffix ("out" ++ "/" ++ "geo" ++ "_F" ++ toString (7 : Int)) ".pkl"
    else
      (export_resolved sampleCtx sampleSop "out" "geo" 7 "npy").events.take 4 =
        [.mkdir ("out" ++ "/" ++ "geo" ++ "_F" ++ toString (7 : Int) ++ "/Point"),
         .mkdir ("out" ++ "/" ++ "geo" ++ "_F" ++ toString (7 : Int) ++ "/Vertex"),
         .mkdir ("out" ++ "/" ++ "geo" ++ "_F" ++ toString (7 : Int) ++ "/Primitive"),
         .mkdir ("out" ++ "/" ++ "geo" ++ "_F" ++ toString (7 : Int) ++ "/Detail")] ∧
      ∀ p, (export_resolved sampleCtx sampleSop "out" "geo" 7 "npy").result = .ok p →
        p = "out" ++ "/" ++ "geo" ++ "_F" ++ toString (7 : Int)) :=
  ⟨by decide, c9_output_root_and_layouts sampleCtx sampleSop "out" "geo" 7 "npy" (by decide)⟩

/-! ### C10: frame resolution -/

theorem save_ascii_plain (path : String) (arr : NpArray) (ev : FsEvent)
    (h : _save_ascii path arr = .ok ev) : ev.plain = true := by
  unfold _save_ascii at h
  split at h
  · injection h with h2
    subst h2
    rfl
  · injection h with h2
    subst h2
    rfl
  · exact Except.noConfusion h

theorem save_array_plain (path_base : String) (arr : NpArray) (fmt : String)
    (evs : List FsEvent) (h : _save_array path_base arr fmt = .ok evs) :
    ∀ e ∈ evs, e.plain = true := by
  unfold _save_array at h
  split at h
  · cases hsa : _save_ascii (path_base ++ ".txt") arr with
    | ok ev =>
      rw [hsa] at h
      simp only [Except.map] at h
      injection h with h2
      subst h2
      intro e he
      simp only [List.mem_singleton] at he
      subst he
      exact save_ascii_plain _ _ _ hsa
    | error err =>
      rw [hsa] at h
      simp [Except.map] at h
  · split at h
    · injection h with h2
      subst h2
      intro e he
      simp only [List.mem_singleton] at he
      subst he
      rfl
    · split at h
      · injection h with h2
        subst h2
        intro e he
        simp only [List.mem_singleton] at he
        subst he
        rfl
      · exact Except.noConfusion h

theorem exportOneAttrib_plain (single : Bool) (fmt folder : String) (elems : List Element)
    (attrib : Attrib) (evs : List FsEvent) (data : ExportData) (m : AttrMeta)
    (h : exportOneAttrib single fmt folder elems attrib = .ok (evs, data, m)) :
    ∀ e ∈ evs, e.plain = true := by
  unfold exportOneAttrib at h
  cases hea : _export_attrib_array elems attrib with
  | error err =>
    rw [hea] at h
    simp at h
  | ok d =>
    rw [hea] at h
    dsimp only at h
    cases single with
    | true =>
      simp only [if_true] at h
      injection h with h2
      rw [Prod.mk.injEq] at h2
      obtain ⟨h3, -⟩ := h2
      subst h3
      intro e he
      simp at he
    | false =>
      simp only [Bool.false_eq_true, if_false] at h
      cases d with
      | arr a =>
        dsimp only at h
        cases hsa : _save_array (folder ++ "/" ++ attrib.name) a fmt with
        | ok evl =>
          rw [hsa] at h
          dsimp only at h
          injection h with h2
          rw [Prod.mk.injEq] at h2
          obtain ⟨h3, -⟩ := h2
          subst h3
          exact save_array_plain _ _ _ _ hsa
        | error err =>
          rw [hsa] at h
          simp at h
      | strs vs =>
        dsimp only at h
        injection h with h2
        rw [Prod.mk.injEq] at h2
        obtain ⟨h3, -⟩ := h2
        subst h3
        intro e he
        simp only [List.mem_singleton] at he
        subst he
        rfl

theorem exportAttribsLoop_plain (single : Bool) (fmt folder : String) (elems : List Element)
    (attribs : List Attrib) :
    ∀ e ∈ (exportAttribsLoop single fmt folder elems attribs).1, e.plain = true := by
  induction attribs with
  | nil =>
    intro e he
    simp [exportAttribsLoop] at he
  | cons a rest ih =>
    intro e he
    rw [exportAttribsLoop] at he
    cases hoa : exportOneAttrib single fmt folder elems a with
    | error err =>
      rw [hoa] at he
      simp at he
    | ok r =>
      obtain ⟨evs, data, m⟩ := r
      rw [hoa] at he
      dsimp only at he
      cases hrest : exportAttribsLoop single fmt folder elems rest with
      | mk evs' res =>
        rw [hrest] at he
        cases res with
        | error err =>
          dsimp only at he
          rcases List.mem_append.mp he with h1 | h2
          · exact exportOneAttrib_plain _ _ _ _ _ _ _ _ hoa e h1
          · have := ih e
            rw [hrest] at this
            exact this h2
        | ok v =>
          obtain ⟨ds, ms⟩ := v
          dsimp only at he
          rcases List.mem_append.mp he with h1 | h2
          · exact exportOneAttrib_plain _ _ _ _ _ _ _ _ hoa e h1
          · have := ih e
            rw [hrest] at this
            exact this h2

theorem domainsLoop_plain (single : Bool) (fmt : String) (geo : Geometry)
    (vertices : List Vertex) (prims : List Prim) (ds : List (Domain × String)) :
    ∀ e ∈ (domainsLoop single fmt geo vertices prims ds).1, e.plain = true := by
  induction ds with
  | nil =>
    intro e he
    simp [domainsLoop] at he
  | cons d rest ih =>
    intro e he
    rw [domainsLoop] at he
    cases hrd : runDomain single fmt geo vertices prims d with
    | mk evs r =>
      rw [hrd] at he
      cases r with
      | error err =>
        dsimp only at he
        have : e ∈ (runDomain single fmt geo vertices prims d).1 := by
          rw [hrd]; exact he
        unfold runDomain at this
        exact exportAttribsLoop_plain _ _ _ _ _ e this
      | ok v =>
        obtain ⟨dmap, mmap⟩ := v
        cases hrest : domainsLoop single fmt geo vertices prims rest with
        | mk evs' res =>
          rw [hrest] at he
          cases res with
          | error err =>
            dsimp only at he
            rcases List.mem_append.mp he with h1 | h2
            · have : e ∈ (runDomain single fmt geo vertices prims d).1 := by
                rw [hrd]; exact h1
              unfold runDomain at this
              exact exportAttribsLoop_plain _ _ _ _ _ e this
            · have := ih e
              rw [hrest] at this
              exact this h2
          | ok v' =>
            obtain ⟨dm, mm⟩ := v'
            dsimp only at he
            rcases List.mem_append.mp he with h1 | h2
            · have : e ∈ (runDomain single fmt geo vertices prims d).1 := by
                rw [hrd]; exact h1
              unfold runDomain at this
              exact exportAttribsLoop_plain _ _ _ _ _ e this
            · have := ih e
              rw [hrest] at this
              exact this h2

theorem mkdirEvents_mkdir_only (b : Bool) (out : String) (ds : List (Domain × String))
    (e : FsEvent)
    (he : e ∈ (if b = true then [FsEvent.mkdir out] else ds.map fun d => FsEvent.mkdir d.2)) :
    ∃ q, e = FsEvent.mkdir q := by
  cases b with
  | true =>
    simp only [if_true] at he
    simp only [List.mem_singleton] at he
    exact ⟨out, he⟩
  | false =>
    simp only [Bool.false_eq_true, if_false, List.mem_map] at he
    obtain ⟨d, -, hd⟩ := he
    exact ⟨d.2, hd.symm⟩

theorem export_resolved_ok_path (ctx : HouCtx) (sop : SopNode) (out_root name : String)
    (fr : Int) (fmt : String) (p : String)
    (h : (export_resolved ctx sop out_root name fr fmt).result = .ok p) :
    p = out_root ++ "/" ++ name ++ "_F" ++ toString fr ∨
    p = pyWithSuffix (out_root ++ "/" ++ name ++ "_F" ++ toString fr) ".pkl" := by
  unfold export_resolved at h
  by_cases hv : fmt ∈ validFormats
  · rw [if_pos hv] at h
    dsimp only at h
    split at h
    · dsimp only at h
      exact Except.noConfusion h
    · split at h
      · dsimp only at h
        injection h with h2
        exact Or.inr h2.symm
      · split at h
        · dsimp only at h
          exact Except.noConfusion h
        · split at h
          · dsimp only at h
            exact Except.noConfusion h
          · split at h
            · dsimp only at h
              exact Except.noConfusion h
            · dsimp only at h
              injection h with h2
              exact Or.inl h2.symm
  · rw [if_neg hv] at h
    exact Except.noConfusion h

theorem export_resolved_manifest_mem (ctx : HouCtx) (sop : SopNode) (out_root name : String)
    (fr : Int) (fmt : String) (pth : String) (m : GeoManifest)
    (h : FsEvent.write pth (.manifest m) ∈ (export_resolved ctx sop out_root name fr fmt).events) :
    m.frame = fr ∧
    pth = out_root ++ "/" ++ name ++ "_F" ++ toString fr ++ "/metadata.json" := by
  unfold export_resolved at h
  by_cases hv : fmt ∈ validFormats
  · rw [if_pos hv] at h
    dsimp only at h
    split at h
    · rename_i evs err heq
      dsimp only at h
      rcases List.mem_append.mp h with h1 | h2
      · obtain ⟨q, hq⟩ := mkdirEvents_mkdir_only _ _ _ _ h1
        simp at hq
      · have hp := domainsLoop_plain (decide (fmt = "single")) fmt sop.geometry
          (sop.geometry.prims.flatMap fun x => x.vertices) sop.geometry.prims
          (dirsFor (out_root ++ "/" ++ name ++ "_F" ++ toString fr))
          (FsEvent.write pth (.manifest m)) (by rw [heq]; exact h2)
        simp [FsEvent.plain] at hp
    · rename_i evs sm am heq
      split at h
      · dsimp only at h
        simp only [List.append_assoc, List.mem_append, List.mem_singleton,
          List.mem_cons, List.not_mem_nil, or_false] at h
        rcases h with h1 | h2 | h3
        · simp at h1
        · have hp := domainsLoop_plain (decide (fmt = "single")) fmt sop.geometry
            (sop.geometry.prims.flatMap fun x => x.vertices) sop.geometry.prims
            (dirsFor (out_root ++ "/" ++ name ++ "_F" ++ toString fr))
            (FsEvent.write pth (.manifest m)) (by rw [heq]; exact h2)
          simp [FsEvent.plain] at hp
        · simp at h3
      · split at h
        · rename_i ev1 heq1
          dsimp only at h
          rcases List.mem_append.mp h with h1 | h2
          · simp only [List.mem_map] at h1
            obtain ⟨d, -, hd⟩ := h1
            simp at hd
          · have hp := domainsLoop_plain (decide (fmt = "single")) fmt sop.geometry
              (sop.geometry.prims.flatMap fun x => x.vertices) sop.geometry.prims
              (dirsFor (out_root ++ "/" ++ name ++ "_F" ++ toString fr))
              (FsEvent.write pth (.manifest m)) (by rw [heq]; exact h2)
            simp [FsEvent.plain] at hp
        · rename_i ev1 heq1
          split at h
          · rename_i ev2 heq2
            dsimp only at h
            simp only [List.append_assoc, List.mem_append] at h
            rcases h with h1 | h2 | h3
            · simp only [List.mem_map] at h1
              obtain ⟨d, -, hd⟩ := h1
              simp at hd
            · have hp := domainsLoop_plain (decide (fmt = "single")) fmt sop.geometry
                (sop.geometry.prims.flatMap fun x => x.vertices) sop.geometry.prims
                (dirsFor (out_root ++ "/" ++ name ++ "_F" ++ toString fr))
                (FsEvent.write pth (.manifest m)) (by rw [heq]; exact h2)
              simp [FsEvent.plain] at hp
            · have hp := save_array_plain _ _ _ _ heq1 _ h3
              simp [FsEvent.plain] at hp
          · rename_i ev2 heq2
            split at h
            · rename_i ev3 heq3
              dsimp only at h
              simp only [List.append_assoc, List.mem_append] at h
              rcases h with h1 | h2 | h3 | h4
              · simp only [List.mem_map] at h1
                obtain ⟨d, -, hd⟩ := h1
                simp at hd
              · have hp := domainsLoop_plain (decide (fmt = "single")) fmt sop.geometry
                  (sop.geometry.prims.flatMap fun x => x.vertices) sop.geometry.prims
                  (dirsFor (out_root ++ "/" ++ name ++ "_F" ++ toString fr))
                  (FsEvent.write pth (.manifest m)) (by rw [heq]; exact h2)
                simp [FsEvent.plain] at hp
              · have hp := save_array_plain _ _ _ _ heq1 _ h3
                simp [FsEvent.plain] at hp
              · have hp := save_array_plain _ _ _ _ heq2 _ h4
                simp [FsEvent.plain] at hp
            · rename_i ev3 heq3
              dsimp only at h
              simp only [List.append_assoc, List.mem_append, List.mem_singleton] at h
              rcases h with h1 | h2 | h3 | h4 | h5 | h6
              · simp only [List.mem_map] at h1
                obtain ⟨d, -, hd⟩ := h1
                simp at hd
              · have hp := domainsLoop_plain (decide (fmt = "single")) fmt sop.geometry
                  (sop.geometry.prims.flatMap fun x => x.vertices) sop.geometry.prims
                  (dirsFor (out_root ++ "/" ++ name ++ "_F" ++ toString fr))
                  (FsEvent.write pth (.manifest m)) (by rw [heq]; exact h2)
                simp [FsEvent.plain] at hp
              · have hp := save_array_plain _ _ _ _ heq1 _ h3
                simp [FsEvent.plain] at hp
              · have hp := save_array_plain _ _ _ _ heq2 _ h4
                simp [FsEvent.plain] at hp
              · have hp := save_array_plain _ _ _ _ heq3 _ h5
                simp [FsEvent.plain] at hp
              · injection h6 with hpth hc
                injection hc with hm
                subst hm
                exact ⟨rfl, hpth⟩
  · rw [if_neg hv] at h
    simp at h

theorem export_resolved_archive_mem (ctx : HouCtx) (sop : SopNode) (out_root name : String)
    (fr : Int) (fmt : String) (pth : String) (o : ArchiveObj)
    (h : FsEvent.write pth (.archive o) ∈ (export_resolved ctx sop out_root name fr fmt).events) :
    o.metadata.frame = fr ∧
    pth = pyWithSuffix (out_root ++ "/" ++ name ++ "_F" ++ toString fr) ".pkl" := by
  unfold export_resolved at h
  by_cases hv : fmt ∈ validFormats
  · rw [if_pos hv] at h
    dsimp only at h
    split at h
    · rename_i evs err heq
      dsimp only at h
      rcases List.mem_append.mp h with h1 | h2
      · obtain ⟨q, hq⟩ := mkdirEvents_mkdir_only _ _ _ _ h1
        simp at hq
      · have hp := domainsLoop_plain (decide (fmt = "single")) fmt sop.geometry
          (sop.geometry.prims.flatMap fun x => x.vertices) sop.geometry.prims
          (dirsFor (out_root ++ "/" ++ name ++ "_F" ++ toString fr))
          (FsEvent.write pth (.archive o)) (by rw [heq]; exact h2)
        simp [FsEvent.plain] at hp
    · rename_i evs sm am heq
      split at h
      · dsimp only at h
        simp only [List.append_assoc, List.mem_append, List.mem_singleton,
          List.mem_cons, List.not_mem_nil, or_false] at h
        rcases h with h1 | h2 | h3
        · simp at h1
        · have hp := domainsLoop_plain (decide (fmt = "single")) fmt sop.geometry
            (sop.geometry.prims.flatMap fun x => x.vertices) sop.geometry.prims
            (dirsFor (out_root ++ "/" ++ name ++ "_F" ++ toString fr))
            (FsEvent.write pth (.archive o)) (by rw [heq]; exact h2)
          simp [FsEvent.plain] at hp
        · injection h3 with hpth hc
          injection hc with ho
          subst ho
          exact ⟨rfl, hpth⟩
      · split at h
        · rename_i ev1 heq1
          dsimp only at h
          rcases List.mem_append.mp h with h1 | h2
          · simp only [List.mem_map] at h1
            obtain ⟨d, -, hd⟩ := h1
            simp at hd
          · have hp := domainsLoop_plain (decide (fmt = "single")) fmt sop.geometry
              (sop.geometry.prims.flatMap fun x => x.vertices) sop.geometry.prims
              (dirsFor (out_root ++ "/" ++ name ++ "_F" ++ toString fr))
              (FsEvent.write pth (.archive o)) (by rw [heq]; exact h2)
            simp [FsEvent.plain] at hp
        · rename_i ev1 heq1
          split at h
          · rename_i ev2 heq2
            dsimp only at h
            simp only [List.append_assoc, List.mem_append] at h
            rcases h with h1 | h2 | h3
            · simp only [List.mem_map] at h1
              obtain ⟨d, -, hd⟩ := h1
              simp at hd
            · have hp := domainsLoop_plain (decide (fmt = "single")) fmt sop.geometry
                (sop.geometry.prims.flatMap fun x => x.vertices) sop.geometry.prims
                (dirsFor (out_root ++ "/" ++ name ++ "_F" ++ toString fr))
                (FsEvent.write pth (.archive o)) (by rw [heq]; exact h2)
              simp [FsEvent.plain] at hp
            · have hp := save_array_plain _ _ _ _ heq1 _ h3
              simp [FsEvent.plain] at hp
          · rename_i ev2 heq2
            split at h
            · rename_i ev3 heq3
              dsimp only at h
              simp only [List.append_assoc, List.mem_append] at h
              rcases h with h1 | h2 | h3 | h4
              · simp only [List.mem_map] at h1
                obtain ⟨d, -, hd⟩ := h1
                simp at hd
              · have hp := domainsLoop_plain (decide (fmt = "single")) fmt sop.geometry
                  (sop.geometry.prims.flatMap fun x => x.vertices) sop.geometry.prims
                  (dirsFor (out_root ++ "/" ++ name ++ "_F" ++ toString fr))
                  (FsEvent.write pth (.archive o)) (by rw [heq]; exact h2)
                simp [FsEvent.plain] at hp
              · have hp := save_array_plain _ _ _ _ heq1 _ h3
                simp [FsEvent.plain] at hp
              · have hp := save_array_plain _ _ _ _ heq2 _ h4
                simp [FsEvent.plain] at hp
            · rename_i ev3 heq3
              dsimp only at h
              simp only [List.append_assoc, List.mem_append, List.mem_singleton] at h
              rcases h with h1 | h2 | h3 | h4 | h5 | h6
              · simp only [List.mem_map] at h1
                obtain ⟨d, -, hd⟩ := h1
                simp at hd
              · have hp := domainsLoop_plain (decide (fmt = "single")) fmt sop.geometry
                  (sop.geometry.prims.flatMap fun x => x.vertices) sop.geometry.prims
                  (dirsFor (out_root ++ "/" ++ name ++ "_F" ++ toString fr))
                  (FsEvent.write pth (.archive o)) (by rw [heq]; exact h2)
                simp [FsEvent.plain] at hp
              · have hp := save_array_plain _ _ _ _ heq1 _ h3
                simp [FsEvent.plain] at hp
              · have hp := save_array_plain _ _ _ _ heq2 _ h4
                simp [FsEvent.plain] at hp
              · have hp := save_array_plain _ _ _ _ heq3 _ h5
                simp [FsEvent.plain] at hp
              · injection h6 with hpth hc
                exact FileContent.noConfusion hc
  · rw [if_neg hv] at h
    simp at h

/-- C10: with `frame = None`, `export_geo_schema` behaves exactly as if
called with the integer part of the ambient current frame,
`int(hou.frame())`; and for that call this single resolved value is both
the one embedded in the output root `<name>_F<frame>` — from which the
returned path derives: the root itself in per-file layout,
`with_suffix(".pkl")` of it in single-archive layout — and the one
recorded as the `frame` field of every manifest written, the
`metadata.json` sidecar as well as the manifest embedded in a single
archive. -/
theorem c10_frame_resolution (ctx : HouCtx) (sop : SopNode) (out_root name : String)
    (format : Option String) :
    export_geo_schema ctx sop out_root name none format =
      export_geo_schema ctx sop out_root name (some (pyInt ctx.frame)) format ∧
    (∀ p, (export_geo_schema ctx sop out_root name none format).result = .ok p →
      p = out_root ++ "/" ++ name ++ "_F" ++ toString (pyInt ctx.frame) ∨
      p = pyWithSuffix (out_root ++ "/" ++ name ++ "_F" ++ toString (pyInt ctx.frame)) ".pkl") ∧
    (∀ pth m, FsEvent.write pth (.manifest m) ∈
        (export_geo_schema ctx sop out_root name none format).events →
      m.frame = pyInt ctx.frame ∧
      pth = out_root ++ "/" ++ name ++ "_F" ++ toString (pyInt ctx.frame) ++ "/metadata.json") ∧
    (∀ pth o, FsEvent.write pth (.archive o) ∈
        (export_geo_schema ctx sop out_root name none format).events →
      o.metadata.frame = pyInt ctx.frame ∧
      pth = pyWithSuffix (out_root ++ "/" ++ name ++ "_F" ++ toString (pyInt ctx.frame))
        ".pkl") := by
  refine ⟨rfl, ?_, ?_, ?_⟩
  · intro p hp
    exact export_resolved_ok_path ctx sop out_root name (pyInt ctx.frame)
      (resolve_format format) p hp
  · intro pth m hm
    exact export_resolved_manifest_mem ctx sop out_root name (pyInt ctx.frame)
      (resolve_format format) pth m hm
  · intro pth o ho
    exact export_resolved_archive_mem ctx sop out_root name (pyInt ctx.frame)
      (resolve_format format) pth o ho
